import Mathlib

/-!
Verification of the realtime mock-interview pipeline (CONFUZ3/interviewcoach).

The development shallowly embeds the session pipeline of `src/App.tsx`:
the playback scheduler, the transcript assembler, the frame sampler, the
teardown path and the feedback synthesizer, together with a spec-modelled
PCM codec (the imported `src/services/audio-processing` module is not part
of the sources under verification). Time is modelled with `ℚ` (audio-clock
seconds) and `Int` (wall-clock milliseconds); audio sources, nodes and
tracks are identified by natural numbers.
-/

/-- Speaker role of a finalized transcript entry (`src/types.ts`, `TranscriptionEntry.role`). -/
inductive Role where
  | user
  | model
deriving DecidableEq, Repr

/-- Finalized transcript entry (`src/types.ts`, `TranscriptionEntry`):
role, text and a millisecond timestamp. -/
structure TranscriptionEntry where
  role : Role
  text : String
  timestamp : Int
deriving DecidableEq, Repr

/-- The mutable state of the `App` component (`src/App.tsx` lines 208-253):
React state and refs relevant to the session pipeline.
`sources` models `sourcesRef` (a `Set` of `AudioBufferSourceNode`s, kept in
insertion order), `nextStartTime` models `nextStartTimeRef`, `bufUser`/`bufModel`
model `transcriptionBufferRef`, `pendUser`/`pendModel` model `pendingTextRef`,
`rafPending` models a non-null `rafRef`, `outputCtx` models a non-null
`outputAudioContextRef`, `stream` models `streamRef` as its list of tracks. -/
structure AppState where
  nextStartTime : ℚ
  sources : List Nat
  isSpeaking : Bool
  bufUser : String
  bufModel : String
  pendUser : String
  pendModel : String
  realtimeUser : String
  realtimeModel : String
  rafPending : Bool
  transcriptions : List TranscriptionEntry
  sessionOpen : Bool
  sessionHandle : Option Nat
  scriptProcessor : Option Nat
  mediaSource : Option Nat
  stream : Option (List Nat)
  outputCtx : Bool
  capturedFrames : List String
  lastFrameCapture : Int
  isActive : Bool
  isConnecting : Bool
  errorMsg : Option String
  statusMessage : String
  endFeedback : Option String
  isGeneratingFeedback : Bool
  ctxJd : String
  ctxResume : String
  ctxApiKey : String
deriving DecidableEq, Repr

/-- State of the component before any session: every ref null, every buffer empty. -/
def initState : AppState where
  nextStartTime := 0
  sources := []
  isSpeaking := false
  bufUser := ""
  bufModel := ""
  pendUser := ""
  pendModel := ""
  realtimeUser := ""
  realtimeModel := ""
  rafPending := false
  transcriptions := []
  sessionOpen := false
  sessionHandle := none
  scriptProcessor := none
  mediaSource := none
  stream := none
  outputCtx := false
  capturedFrames := []
  lastFrameCapture := 0
  isActive := false
  isConnecting := false
  errorMsg := none
  statusMessage := ""
  endFeedback := none
  isGeneratingFeedback := false
  ctxJd := ""
  ctxResume := ""
  ctxApiKey := ""

/-- State right after the `onopen` callback of `startSession` (`src/App.tsx`
lines 509-543): session open and active, audio contexts created, microphone
stream wired through the script processor, no playback yet. -/
def openSessionState : AppState :=
  { initState with
      sessionOpen := true
      sessionHandle := some 0
      scriptProcessor := some 1
      mediaSource := some 2
      stream := some [3]
      outputCtx := true
      isActive := true }

/-- Playback scheduling of one decoded response-audio chunk
(`src/App.tsx` lines 378-390): `nextStartTimeRef.current =
Math.max(nextStartTimeRef.current, ctx.currentTime)`, then
`source.start(nextStartTimeRef.current)`, `nextStartTimeRef.current +=
audioBuffer.duration`, `sourcesRef.current.add(source)`. Returns the updated
state together with the scheduled start time. -/
def enqueue (clock dur : ℚ) (src : Nat) (s : AppState) : AppState × ℚ :=
  let start := max s.nextStartTime clock
  ({ s with nextStartTime := start + dur, sources := s.sources ++ [src] }, start)

/-- Interruption handling (`src/App.tsx` lines 395-402): stop every source,
clear the set, reset the cursor to zero, clear the speaking flag. Returns the
new state and the list of sources that were stopped. -/
def interrupt (s : AppState) : AppState × List Nat :=
  ({ s with sources := [], nextStartTime := 0, isSpeaking := false }, s.sources)

/-- The `onended` callback of a playback source (`src/App.tsx` lines 384-387):
`sourcesRef.current.delete(source); if (sourcesRef.current.size === 0)
setIsSpeaking(false)`. -/
def sourceEnded (src : Nat) (s : AppState) : AppState :=
  let sources := s.sources.erase src
  { s with
      sources := sources
      isSpeaking := if sources = [] then false else s.isSpeaking }

/-- Input-transcription partial-text handling (`src/App.tsx` lines 405-417):
append to the user accumulator and the pending buffer, schedule an
animation-frame redraw if none is pending. -/
def appendUserText (t : String) (s : AppState) : AppState :=
  { s with bufUser := s.bufUser ++ t, pendUser := s.pendUser ++ t, rafPending := true }

/-- Output-transcription partial-text handling (`src/App.tsx` lines 418-430):
append to the model accumulator and the pending buffer, schedule an
animation-frame redraw if none is pending. -/
def appendModelText (t : String) (s : AppState) : AppState :=
  { s with bufModel := s.bufModel ++ t, pendModel := s.pendModel ++ t, rafPending := true }

/-- The scheduled animation-frame callback (`src/App.tsx` lines 412-415):
copy the pending buffer into the realtime display text and clear `rafRef`. -/
def rafFire (s : AppState) : AppState :=
  if s.rafPending then
    { s with realtimeUser := s.pendUser, realtimeModel := s.pendModel, rafPending := false }
  else s

/-- The JS `String.prototype.trim()`: strip leading and trailing whitespace.
Defined over the character list so that it evaluates on concrete inputs. -/
def jsTrim (s : String) : String :=
  ⟨((s.data.dropWhile Char.isWhitespace).reverse.dropWhile Char.isWhitespace).reverse⟩

/-- Turn-complete handling (`src/App.tsx` lines 431-450): cancel any pending
animation frame, trim both accumulators, append a finalized user entry and/or
model entry when the trimmed text is non-empty (user first), then reset both
accumulators, the pending buffer and the realtime display. `now` is the value
`Date.now()` returns for this event. -/
def onTurnComplete (now : Int) (s : AppState) : AppState :=
  let uText := jsTrim s.bufUser
  let mText := jsTrim s.bufModel
  let transcriptions :=
    if uText ≠ "" ∨ mText ≠ "" then
      s.transcriptions
        ++ (if uText ≠ "" then [⟨Role.user, uText, now⟩] else [])
        ++ (if mText ≠ "" then [⟨Role.model, mText, now⟩] else [])
    else s.transcriptions
  { s with
      rafPending := false
      transcriptions := transcriptions
      bufUser := ""
      bufModel := ""
      pendUser := ""
      pendModel := ""
      realtimeUser := ""
      realtimeModel := "" }

/-- Inbound server message (`src/App.tsx` `handleMessage` field accesses,
spec section 6). `audioData = some none` models a present audio payload whose
decode throws; `audioData = some (some (dur, src))` models a payload that
decodes to a buffer of duration `dur`, played through a fresh source `src`.
Absent or empty transcription text is `none` / `some ""`. -/
structure ServerMsg where
  audioData : Option (Option (ℚ × Nat))
  interrupted : Bool
  inputTranscription : Option String
  outputTranscription : Option String
  turnComplete : Bool
deriving DecidableEq, Repr

/-- Audio-output branch of `handleMessage` (`src/App.tsx` lines 373-392):
set the speaking flag, and if the output context exists, advance the cursor to
`max(cursor, currentTime)`, decode (which may throw — modelled as `Except`,
carrying the state mutated so far), then schedule the chunk. -/
def processAudio (clock : ℚ) (payload : Option (ℚ × Nat)) (s : AppState) :
    Except (String × AppState) AppState :=
  let s1 := { s with isSpeaking := true }
  if s1.outputCtx then
    let s2 := { s1 with nextStartTime := max s1.nextStartTime clock }
    match payload with
    | none => .error ("decodeAudioData failed", s2)
    | some (dur, src) =>
        .ok { s2 with nextStartTime := s2.nextStartTime + dur, sources := s2.sources ++ [src] }
  else .ok s1

/-- Branches of `handleMessage` after the audio branch (`src/App.tsx`
lines 394-450): interruption, input transcription (skipped when the text is
absent or empty, matching JS truthiness), output transcription, turn-complete,
in this order. -/
def processRest (now : Int) (msg : ServerMsg) (s1 : AppState) : AppState :=
  let s2 := if msg.interrupted then (interrupt s1).1 else s1
  let s3 := match msg.inputTranscription with
    | some t => if t ≠ "" then appendUserText t s2 else s2
    | none => s2
  let s4 := match msg.outputTranscription with
    | some t => if t ≠ "" then appendModelText t s3 else s3
    | none => s3
  if msg.turnComplete then onTurnComplete now s4 else s4

/-- Body of `handleMessage` inside the try block (`src/App.tsx` lines 371-450):
audio output, interruption, input transcription, output transcription and
turn-complete are processed in this order; a decode failure aborts the rest,
carrying the state mutated before the throw. -/
def processMsg (clock : ℚ) (now : Int) (msg : ServerMsg) (s : AppState) :
    Except (String × AppState) AppState :=
  let step1 : Except (String × AppState) AppState :=
    match msg.audioData with
    | none => .ok s
    | some payload => processAudio clock payload s
  match step1 with
  | .error e => .error e
  | .ok s1 => .ok (processRest now msg s1)

/-- The full message handler with its outer try/catch (`src/App.tsx`
lines 370-454): an error thrown mid-processing is caught and logged
(`console.error`); the mutations performed before the throw persist. -/
def handleMessage (clock : ℚ) (now : Int) (msg : ServerMsg) (s : AppState) : AppState :=
  match processMsg clock now msg s with
  | .ok s1 => s1
  | .error (_, p) => p

/-- Playback-relevant events during an open session: an audio chunk arriving
(with current clock time, decoded duration and fresh source id), an
`interrupted` signal, and a source's `onended` callback. -/
inductive PlaybackEv where
  | audioChunk (clock dur : ℚ) (src : Nat)
  | interrupted
  | ended (src : Nat)
deriving DecidableEq, Repr

/-- One playback event, as `handleMessage` and the `onended` callback process it:
an audio chunk sets the speaking flag and schedules the chunk, an interruption
runs `interrupt`, a natural completion runs `sourceEnded`. -/
def playbackStep (e : PlaybackEv) (s : AppState) : AppState :=
  match e with
  | .audioChunk clock dur src => (enqueue clock dur src { s with isSpeaking := true }).1
  | .interrupted => (interrupt s).1
  | .ended src => sourceEnded src s

/-- Run a sequence of playback events. -/
def playbackRun (es : List PlaybackEv) (s : AppState) : AppState :=
  match es with
  | [] => s
  | e :: rest => playbackRun rest (playbackStep e s)

/-- Frame-capture throttle constant (`src/App.tsx` line 249): one retained frame
every 5000 ms. -/
def FRAME_CAPTURE_INTERVAL : Int := 5000

/-- Retained-frame capacity (`src/App.tsx` line 250): at most 12 frames kept. -/
def MAX_FRAMES_FOR_FEEDBACK : Nat := 12

/-- One invocation of the frame callback: wall-clock time `now` (ms), the
captured base64 frame, whether `sendRealtimeInput` succeeds, and — when it
fails — whether the error message contains `CLOS`. -/
structure FrameEv where
  now : Int
  frame : String
  sendOk : Bool
  closeErr : Bool
deriving DecidableEq, Repr

/-- The `handleFrame` callback (`src/App.tsx` lines 596-621): when the session
is open, present and active, forward the frame; then, if at least
`FRAME_CAPTURE_INTERVAL` ms elapsed since the last retention, record the
retention time, push the frame, and shift out the oldest frame when the buffer
exceeds `MAX_FRAMES_FOR_FEEDBACK`. A send failure whose message contains
`CLOS` flips the open flag instead. -/
def handleFrame (e : FrameEv) (s : AppState) : AppState :=
  if s.sessionOpen && s.sessionHandle.isSome && s.isActive then
    if e.sendOk then
      if FRAME_CAPTURE_INTERVAL ≤ e.now - s.lastFrameCapture then
        let l := s.capturedFrames ++ [e.frame]
        { s with
            lastFrameCapture := e.now
            capturedFrames := if MAX_FRAMES_FOR_FEEDBACK < l.length then l.drop 1 else l }
      else s
    else if e.closeErr then { s with sessionOpen := false } else s
  else s

/-- The condition under which `handleFrame` retains the frame into the
analysis buffer. -/
def retainCond (e : FrameEv) (s : AppState) : Bool :=
  s.sessionOpen && s.sessionHandle.isSome && s.isActive && e.sendOk
    && decide (FRAME_CAPTURE_INTERVAL ≤ e.now - s.lastFrameCapture)

/-- Run a sequence of frame-callback invocations. -/
def framesRun (es : List FrameEv) (s : AppState) : AppState :=
  match es with
  | [] => s
  | e :: rest => framesRun rest (handleFrame e s)

/-- The full sequence of frames retained over a run, in retention order,
without the capacity bound. -/
def retainedTrace (es : List FrameEv) (s : AppState) : List String :=
  match es with
  | [] => []
  | e :: rest =>
      (if retainCond e s then [e.frame] else []) ++ retainedTrace rest (handleFrame e s)

/-- Observable side effects of teardown, in the order the code performs them. -/
inductive TeardownAct where
  | closeSession (h : Nat)
  | setOpenFalse
  | disconnectNode (n : Nat)
  | stopTrack (t : Nat)
  | stopPlayback (src : Nat)
  | clearSources
  | resetCursor
deriving DecidableEq, Repr

/-- The `cleanup` callback (`src/App.tsx` lines 255-286): flip the open flag
false, disconnect the script processor and the media source (each guarded by a
try/catch, so a throw is swallowed), stop and release the microphone tracks,
stop every playback source (try/catch around each `stop`), clear the source
set, reset the cursor. Returns the new state and the ordered action trace;
absent resources emit no action and nothing throws. -/
def cleanup (s : AppState) : AppState × List TeardownAct :=
  let disconnectActs :=
    (match s.scriptProcessor with | some n => [TeardownAct.disconnectNode n] | none => [])
      ++ (match s.mediaSource with | some n => [TeardownAct.disconnectNode n] | none => [])
  let trackActs :=
    match s.stream with | some ts => ts.map TeardownAct.stopTrack | none => []
  let sourceActs := s.sources.map TeardownAct.stopPlayback
  ({ s with
      sessionOpen := false
      scriptProcessor := none
      mediaSource := none
      stream := none
      sources := []
      nextStartTime := 0 },
   TeardownAct.setOpenFalse
     :: (disconnectActs ++ trackActs ++ sourceActs
          ++ [TeardownAct.clearSources, TeardownAct.resetCursor]))

/-- Content part of the batch feedback request (spec section 6): a text part
or an inline JPEG image part. -/
inductive ContentPart where
  | text (s : String)
  | image (data : String)
deriving DecidableEq, Repr

/-- Prompt template of `getFeedbackPrompt` (`src/App.tsx` lines 116-206).
The prompt wording is business copy outside the verified core (spec
section 1); only its dependence on the presence of a résumé and a job
description is modelled. -/
def getFeedbackPrompt (jd resume : Option String) : String :=
  "feedback-prompt"
    ++ (if (resume.getD "").trim ≠ "" then "+resume" else "")
    ++ (if (jd.getD "").trim ≠ "" then "+jd" else "")

/-- Speaker-labelled line of the serialized transcript (`src/App.tsx`
lines 297-299). -/
def formatEntry (e : TranscriptionEntry) : String :=
  (if e.role = Role.user then "Candidate" else "Interviewer") ++ ": " ++ e.text

/-- The serialized transcript: speaker-labelled lines joined by blank lines. -/
def formattedTranscript (t : List TranscriptionEntry) : String :=
  String.intercalate "\n\n" (t.map formatEntry)

/-- Leading text part of the feedback request (`src/App.tsx` line 307). -/
def feedbackHeader (jd resume : Option String) (t : List TranscriptionEntry)
    (frames : List String) : String :=
  getFeedbackPrompt jd resume
    ++ "\n\n---\n\nINTERVIEW TRANSCRIPT:\n\n" ++ formattedTranscript t
    ++ "\n\n---\n\nVIDEO FRAMES FROM THE INTERVIEW (" ++ toString frames.length
    ++ " frames captured at regular intervals):\n"

/-- Frame parts with a `[Frame i]` text marker between consecutive frames but
not after the last one (`src/App.tsx` lines 310-316); `i` is the index of the
frame being pushed. -/
def frameParts (i : Nat) (frames : List String) : List ContentPart :=
  match frames with
  | [] => []
  | [f] => [ContentPart.image f]
  | f :: rest =>
      ContentPart.image f
        :: ContentPart.text ("\n[Frame " ++ toString (i + 1) ++ "]\n")
        :: frameParts (i + 1) rest

/-- All content parts of the feedback request (`src/App.tsx` lines 304-319). -/
def buildContentParts (jd resume : Option String) (t : List TranscriptionEntry)
    (frames : List String) : List ContentPart :=
  ContentPart.text (feedbackHeader jd resume t frames)
    :: (if frames.length > 0 then frameParts 0 frames
        else [ContentPart.text "\n[No video frames were captured during this interview]\n"])

/-- The API key actually used by `generateFeedback` (`src/App.tsx` line 290):
`key || interviewContextRef.current.apiKey`, where an absent or empty `key`
falls through to the stored context key. -/
def effectiveKey (key : Option String) (ctxKey : String) : String :=
  match key with
  | some k => if k = "" then ctxKey else k
  | none => ctxKey

/-- One batch feedback request (`src/App.tsx` lines 321-324). -/
structure FeedbackReq where
  reqModel : String
  parts : List ContentPart
deriving DecidableEq, Repr

/-- The request `generateFeedback` issues, or `none` when it returns without
calling the endpoint (`src/App.tsx` lines 289-324): it no-ops when the
effective key is empty or the transcript is empty. -/
def generateFeedbackReq (t : List TranscriptionEntry) (frames : List String)
    (jd resume key : Option String) (ctxKey : String) : Option FeedbackReq :=
  if effectiveKey key ctxKey = "" ∨ t = [] then none
  else some ⟨"gemini-3-flash-preview", buildContentParts jd resume t frames⟩

/-- Outcome of the batch call as `generateFeedback` observes it: a response
whose `text` field may be absent or empty, or a thrown error with its detail
(network failure, quota error, rejected promise). -/
inductive ApiOutcome where
  | ok (text : Option String)
  | err (detail : String)
deriving DecidableEq, Repr

/-- State effect of a full `generateFeedback` run (`src/App.tsx`
lines 289-334): no-op when the guard fails; otherwise the response text (with
the `Unable to generate feedback. Please try again.` fallback when absent or
empty) or — for any thrown error, whatever its detail — the fixed catch
message is surfaced; the `finally` clause clears the generating flag. -/
def runGenerateFeedback (t : List TranscriptionEntry) (frames : List String)
    (jd resume key : Option String) (ctxKey : String) (outcome : ApiOutcome)
    (s : AppState) : AppState :=
  if effectiveKey key ctxKey = "" ∨ t = [] then s
  else
    match outcome with
    | .ok text =>
        let feedbackText :=
          match text with
          | some x => if x = "" then "Unable to generate feedback. Please try again." else x
          | none => "Unable to generate feedback. Please try again."
        { s with endFeedback := some feedbackText, isGeneratingFeedback := false }
    | .err _ =>
        { s with
            endFeedback :=
              some "Failed to generate feedback. Please check your API key and connection, then try again."
            isGeneratingFeedback := false }

/-- The `stopSession` callback (`src/App.tsx` lines 336-367): snapshot the
transcript, frames and context, close the session handle (try/catch), run
`cleanup`, clear the UI flags and the frame buffer, and — only when the
snapshot transcript is non-empty — invoke `generateFeedback` with the
snapshot. Returns the new state, the teardown action trace and the feedback
request issued (if any). -/
def stopSession (s : AppState) : AppState × List TeardownAct × Option FeedbackReq :=
  let currentT := s.transcriptions
  let currentF := s.capturedFrames
  let closeActs :=
    match s.sessionHandle with
    | some h => [TeardownAct.closeSession h]
    | none => []
  let s1 := { s with sessionHandle := none }
  let c := cleanup s1
  let s3 :=
    { c.1 with
        isActive := false
        isConnecting := false
        isSpeaking := false
        statusMessage := ""
        capturedFrames := []
        lastFrameCapture := 0 }
  let req :=
    if currentT.length > 0 then
      generateFeedbackReq currentT currentF (some s.ctxJd) (some s.ctxResume)
        (some s.ctxApiKey) s.ctxApiKey
    else none
  (s3, closeActs ++ c.2, req)

/-- Modelled from the spec: `src/services/audio-processing` (the PCM codec:
`decode`, `decodeAudioData`, `createPcmBlob`) is imported by `src/App.tsx` but
is not among the sources under verification. Spec section 4.1: encoding
"clamps each sample to [-1,1] before scaling to the 16-bit signed range to
avoid overflow wraparound"; samples are 16-bit signed PCM, little-endian, no
dithering; decoding divides each 16-bit value by 32768. Base64 wire transport
is modelled as the identity on byte buffers (the spec specifies `encode` and
`decode` only as mutually inverse). Clamp of one float sample to `[-1, 1]`. -/
def clampSample (x : ℚ) : ℚ := max (-1) (min 1 x)

/-- Modelled from the spec: truncation toward zero, the numeric conversion a
typed 16-bit store performs on an in-range value. -/
def truncQ (x : ℚ) : Int := if 0 ≤ x then ⌊x⌋ else -⌊-x⌋

/-- Modelled from the spec: one sample scaled to the 16-bit signed range after
clamping, saturating at 32767 so the clamped top of the range cannot wrap. -/
def quantizeSample (x : ℚ) : Int := min 32767 (truncQ (clampSample x * 32768))

/-- Two's-complement little-endian byte pair of an `Int16` value. -/
def int16ToBytes (v : Int) : List Nat :=
  [(v % 65536).toNat % 256, (v % 65536).toNat / 256]

/-- Reinterpret a little-endian byte pair as a signed 16-bit value. -/
def bytesToInt16 (b0 b1 : Nat) : Int :=
  if b0 + 256 * b1 < 32768 then ((b0 : Int) + 256 * b1)
  else ((b0 : Int) + 256 * b1) - 65536

/-- Modelled from the spec: the byte payload of `createPcmBlob` — each float
sample clamped, quantized and stored as two little-endian bytes. -/
def createPcmBlobData (xs : List ℚ) : List Nat :=
  (xs.map fun x => int16ToBytes (quantizeSample x)).flatten

/-- Modelled from the spec: decoding a PCM16LE byte buffer back to float
samples, each 16-bit value divided by 32768. -/
def decodePcmSamples : List Nat → List ℚ
  | b0 :: b1 :: rest => ((bytesToInt16 b0 b1 : ℚ) / 32768) :: decodePcmSamples rest
  | _ => []

/-! Helper definitions and lemmas for the claim theorems. -/

/-- The last `n` elements of a list, in order. -/
def lastN (n : Nat) (l : List α) : List α := l.drop (l.length - n)

/-- The session-machine observables of the state: the error surface, the
activity flags, the open flag, the session handle, the status message and the
acquired resources. `handleMessage` must leave all of them unchanged. -/
def sessionMachineView (s : AppState) :
    Option String × Bool × Bool × Bool × Option Nat × String × Option Nat × Option Nat
      × Option (List Nat) :=
  (s.errorMsg, s.isActive, s.isConnecting, s.sessionOpen, s.sessionHandle,
   s.statusMessage, s.scriptProcessor, s.mediaSource, s.stream)

lemma sessionMachineView_processRest (now : Int) (msg : ServerMsg) (s1 : AppState) :
    sessionMachineView (processRest now msg s1) = sessionMachineView s1 := by
  rcases msg with ⟨ad, intr, it, ot, tc⟩
  dsimp only [processRest]
  cases intr <;> rcases it with _ | t1 <;> rcases ot with _ | t2 <;> cases tc <;>
    simp [sessionMachineView, interrupt, appendUserText, appendModelText, onTurnComplete] <;>
    split_ifs <;> simp

lemma sessionMachineView_processAudio (clock : ℚ) (payload : Option (ℚ × Nat))
    (s : AppState) :
    (∀ s1, processAudio clock payload s = .ok s1 →
      sessionMachineView s1 = sessionMachineView s) ∧
    (∀ d p, processAudio clock payload s = .error (d, p) →
      sessionMachineView p = sessionMachineView s) := by
  dsimp only [processAudio]
  rcases payload with _ | ⟨dur, src⟩ <;>
    by_cases hctx : s.outputCtx <;>
    simp [hctx, sessionMachineView]

/-- C10: every inbound server message — including one whose audio payload
fails to decode — is handled without propagating an exception: the catch
clause returns the state mutated so far, and no message ever changes the
session state machine, tears down resources, or surfaces a user-visible
error. -/
theorem handleMessage_never_escalates (clock : ℚ) (now : Int) (msg : ServerMsg)
    (s : AppState) :
    sessionMachineView (handleMessage clock now msg s) = sessionMachineView s ∧
    ∀ d p, processMsg clock now msg s = .error (d, p) →
      handleMessage clock now msg s = p := by
  constructor
  · dsimp only [handleMessage, processMsg]
    rcases had : msg.audioData with _ | payload
    · simp [sessionMachineView_processRest]
    · dsimp only
      rcases hpa : processAudio clock payload s with ⟨d, p⟩ | s1
      · exact (sessionMachineView_processAudio clock payload s).2 d p hpa
      · exact (sessionMachineView_processRest now msg s1).trans
          ((sessionMachineView_processAudio clock payload s).1 s1 hpa)
  · intro d p hp
    simp [handleMessage, hp]

/-- C1: on every turn-complete event the assembler empties both per-role
accumulators and the pending interim buffer, and appends at most one finalized
user entry and at most one model entry (skipping a role whose trimmed
accumulator is empty, user before model), each carrying the trimmed
accumulator text; with both accumulators trimming to empty, nothing is
appended. -/
theorem turnComplete_assembles_entries (now : Int) (s : AppState) :
    (onTurnComplete now s).bufUser = "" ∧
    (onTurnComplete now s).bufModel = "" ∧
    (onTurnComplete now s).pendUser = "" ∧
    (onTurnComplete now s).pendModel = "" ∧
    ∃ u m : List TranscriptionEntry,
      (onTurnComplete now s).transcriptions = s.transcriptions ++ (u ++ m) ∧
      u.length ≤ 1 ∧ m.length ≤ 1 ∧
      (∀ e ∈ u, e.role = Role.user ∧ e.text = jsTrim s.bufUser) ∧
      (∀ e ∈ m, e.role = Role.model ∧ e.text = jsTrim s.bufModel) ∧
      (u = [] ↔ jsTrim s.bufUser = "") ∧
      (m = [] ↔ jsTrim s.bufModel = "") := by
  refine ⟨rfl, rfl, rfl, rfl, ?_⟩
  refine ⟨if jsTrim s.bufUser = "" then [] else [⟨Role.user, jsTrim s.bufUser, now⟩],
          if jsTrim s.bufModel = "" then [] else [⟨Role.model, jsTrim s.bufModel, now⟩],
          ?_, ?_, ?_, ?_, ?_, ?_, ?_⟩
  · dsimp only [onTurnComplete]
    by_cases hu : jsTrim s.bufUser = "" <;> by_cases hm : jsTrim s.bufModel = "" <;>
      simp [hu, hm]
  · by_cases hu : jsTrim s.bufUser = "" <;> simp [hu]
  · by_cases hm : jsTrim s.bufModel = "" <;> simp [hm]
  · by_cases hu : jsTrim s.bufUser = "" <;> simp [hu]
  · by_cases hm : jsTrim s.bufModel = "" <;> simp [hm]
  · by_cases hu : jsTrim s.bufUser = "" <;> simp [hu]
  · by_cases hm : jsTrim s.bufModel = "" <;> simp [hm]

/-- Witness for C1 at a concrete state: a turn with user text `" hello "` and
no model text appends exactly one user entry with the trimmed text. -/
theorem turnComplete_assembles_entries_witness :
    (onTurnComplete 7 { openSessionState with bufUser := " hello " }).transcriptions =
      [⟨Role.user, "hello", 7⟩] ∧
    (onTurnComplete 7 { openSessionState with bufUser := " hello " }).bufUser = "" :=
  ⟨by decide, (turnComplete_assembles_entries 7 { openSessionState with bufUser := " hello " }).1⟩

/-- C3: processing an interrupted signal stops exactly the previously active
sources, leaves the active-source set empty, resets the playback cursor to
zero and leaves the speaking signal false, whatever the prior state. -/
theorem interrupt_clears_everything (s : AppState) :
    (interrupt s).2 = s.sources ∧
    (interrupt s).1.sources = [] ∧
    (interrupt s).1.nextStartTime = 0 ∧
    (interrupt s).1.isSpeaking = false :=
  ⟨rfl, rfl, rfl, rfl⟩

/-- Witness for C10 at a concrete input: a message whose audio payload fails
to decode is caught; the state keeps the mutations made before the throw
(speaking flag set) and nothing else changes. -/
theorem handleMessage_never_escalates_witness :
    handleMessage 0 0 ⟨some none, false, none, none, false⟩ openSessionState =
      { openSessionState with isSpeaking := true } :=
  (handleMessage_never_escalates 0 0 ⟨some none, false, none, none, false⟩
      openSessionState).2 "decodeAudioData failed"
    { openSessionState with isSpeaking := true } (by rfl)

/-- Witness for C3 at a concrete state with two active sources mid-playback. -/
theorem interrupt_clears_everything_witness :
    (interrupt { openSessionState with
        sources := [4, 5], isSpeaking := true, nextStartTime := 3 }).2 = [4, 5] ∧
    (interrupt { openSessionState with
        sources := [4, 5], isSpeaking := true, nextStartTime := 3 }).1.sources = [] ∧
    (interrupt { openSessionState with
        sources := [4, 5], isSpeaking := true, nextStartTime := 3 }).1.nextStartTime = 0 ∧
    (interrupt { openSessionState with
        sources := [4, 5], isSpeaking := true, nextStartTime := 3 }).1.isSpeaking = false :=
  interrupt_clears_everything
    { openSessionState with sources := [4, 5], isSpeaking := true, nextStartTime := 3 }

/-- C7: teardown sets the open flag false, releases both audio nodes, the
microphone stream and every playback source, and zeroes the cursor; the action
trace opens with the flag flip, then node disconnections, then track stops,
then source stops, then the set clear and the cursor reset, in that order;
running teardown again from the torn-down state changes nothing and releases
no resource (so teardown is idempotent and safe when nothing was acquired),
and `stopSession` is idempotent on the state. -/
theorem stop_teardown_order_idempotent (s : AppState) :
    ((cleanup s).1.sessionOpen = false ∧
     (cleanup s).1.scriptProcessor = none ∧
     (cleanup s).1.mediaSource = none ∧
     (cleanup s).1.stream = none ∧
     (cleanup s).1.sources = [] ∧
     (cleanup s).1.nextStartTime = 0) ∧
    cleanup (cleanup s).1 =
      ((cleanup s).1,
       [TeardownAct.setOpenFalse, TeardownAct.clearSources, TeardownAct.resetCursor]) ∧
    (stopSession (stopSession s).1).1 = (stopSession s).1 ∧
    ∃ nodeActs trackActs sourceActs,
      (cleanup s).2 = TeardownAct.setOpenFalse
        :: (nodeActs ++ trackActs ++ sourceActs
             ++ [TeardownAct.clearSources, TeardownAct.resetCursor]) ∧
      (∀ a ∈ nodeActs, ∃ n, a = TeardownAct.disconnectNode n) ∧
      (∀ a ∈ trackActs, ∃ t, a = TeardownAct.stopTrack t) ∧
      (∀ a ∈ sourceActs, ∃ x, a = TeardownAct.stopPlayback x) := by
  refine ⟨⟨rfl, rfl, rfl, rfl, rfl, rfl⟩, by simp [cleanup], by simp [stopSession, cleanup], ?_⟩
  refine ⟨(match s.scriptProcessor with
            | some n => [TeardownAct.disconnectNode n] | none => [])
          ++ (match s.mediaSource with
              | some n => [TeardownAct.disconnectNode n] | none => []),
        (match s.stream with | some ts => ts.map TeardownAct.stopTrack | none => []),
        s.sources.map TeardownAct.stopPlayback, rfl, ?_, ?_, ?_⟩
  · intro a ha
    simp only [List.mem_append] at ha
    rcases ha with h | h
    · rcases hsp : s.scriptProcessor with _ | n
      · rw [hsp] at h
        simp at h
      · rw [hsp] at h
        simp at h
        exact ⟨n, h⟩
    · rcases hms : s.mediaSource with _ | n
      · rw [hms] at h
        simp at h
      · rw [hms] at h
        simp at h
        exact ⟨n, h⟩
  · intro a ha
    rcases hst : s.stream with _ | ts
    · rw [hst] at ha
      simp at ha
    · rw [hst] at ha
      simp only [List.mem_map] at ha
      obtain ⟨t, _, rfl⟩ := ha
      exact ⟨t, rfl⟩
  · intro a ha
    simp only [List.mem_map] at ha
    obtain ⟨x, _, rfl⟩ := ha
    exact ⟨x, rfl⟩

/-- C8: the feedback synthesizer issues no request when the effective
credential is absent or the transcript is empty, a request implies both were
present, and stopping a session with an empty finalized transcript never
invokes it. -/
theorem feedback_noop_conditions (t : List TranscriptionEntry) (frames : List String)
    (jd resume key : Option String) (ctxKey : String) (s : AppState) :
    ((effectiveKey key ctxKey = "" ∨ t = []) →
      generateFeedbackReq t frames jd resume key ctxKey = none) ∧
    (∀ r, generateFeedbackReq t frames jd resume key ctxKey = some r →
      t ≠ [] ∧ effectiveKey key ctxKey ≠ "") ∧
    (s.transcriptions = [] → (stopSession s).2.2 = none) := by
  refine ⟨?_, ?_, ?_⟩
  · intro h
    simp [generateFeedbackReq, h]
  · intro r hr
    by_cases hc : effectiveKey key ctxKey = "" ∨ t = []
    · simp [generateFeedbackReq, hc] at hr
    · push_neg at hc
      exact ⟨hc.2, hc.1⟩
  · intro h
    simp [stopSession, h]

/-- Witness for C8 at concrete inputs: an empty transcript produces no
request even with a credential present. -/
theorem feedback_noop_conditions_witness :
    generateFeedbackReq [] ["frame"] none none (some "key") "" = none :=
  (feedback_noop_conditions [] ["frame"] none none (some "key") "" initState).1
    (Or.inr rfl)

/-- Counterexample for C9: with a non-empty transcript and a credential, an
empty response surfaces `Unable to generate feedback. Please try again.`
while a thrown network error surfaces `Failed to generate feedback. Please
check your API key and connection, then try again.` — the user-visible
failure message is not identical across failure kinds. -/
theorem feedback_failure_message_cex :
    (runGenerateFeedback [⟨Role.user, "hello", 0⟩] [] none none (some "key") ""
        (ApiOutcome.ok none) initState).endFeedback ≠
    (runGenerateFeedback [⟨Role.user, "hello", 0⟩] [] none none (some "key") ""
        (ApiOutcome.err "TypeError: Failed to fetch") initState).endFeedback := by
  decide

/-- C9 (amended): every thrown failure — network, quota, any rejected call —
surfaces the one fixed message `Failed to generate feedback. Please check
your API key and connection, then try again.`, independent of the raw error
detail, which is never shown; an empty or absent response text instead
surfaces the fixed fallback `Unable to generate feedback. Please try
again.`; in every outcome the flow completes with the generating flag
cleared. -/
theorem feedback_failure_fixed_messages (t : List TranscriptionEntry)
    (frames : List String) (jd resume key : Option String) (ctxKey : String)
    (s : AppState) (hg : ¬ (effectiveKey key ctxKey = "" ∨ t = [])) :
    (∀ d, (runGenerateFeedback t frames jd resume key ctxKey (.err d) s).endFeedback =
      some "Failed to generate feedback. Please check your API key and connection, then try again.") ∧
    (∀ a b, runGenerateFeedback t frames jd resume key ctxKey (.err a) s =
      runGenerateFeedback t frames jd resume key ctxKey (.err b) s) ∧
    ((runGenerateFeedback t frames jd resume key ctxKey (.ok none) s).endFeedback =
      some "Unable to generate feedback. Please try again.") ∧
    ((runGenerateFeedback t frames jd resume key ctxKey (.ok (some "")) s).endFeedback =
      some "Unable to generate feedback. Please try again.") ∧
    (∀ o, (runGenerateFeedback t frames jd resume key ctxKey o s).isGeneratingFeedback
      = false) := by
  refine ⟨?_, ?_, ?_, ?_, ?_⟩
  · intro d
    simp [runGenerateFeedback, hg]
  · intro a b
    simp [runGenerateFeedback, hg]
  · simp [runGenerateFeedback, hg]
  · simp [runGenerateFeedback, hg]
  · intro o
    rcases o with text | d <;> simp [runGenerateFeedback, hg]

/-- Witness for C9's amended theorem at a concrete quota failure. -/
theorem feedback_failure_fixed_messages_witness :
    (runGenerateFeedback [⟨Role.user, "hi", 0⟩] [] none none (some "key") ""
        (ApiOutcome.err "429 RESOURCE_EXHAUSTED") initState).endFeedback =
      some "Failed to generate feedback. Please check your API key and connection, then try again." :=
  (feedback_failure_fixed_messages [⟨Role.user, "hi", 0⟩] [] none none (some "key") ""
      initState (by decide)).1 "429 RESOURCE_EXHAUSTED"

lemma lastN_of_length_le {α : Type} {n : Nat} {l : List α} (h : l.length ≤ n) :
    lastN n l = l := by
  unfold lastN
  have h0 : l.length - n = 0 := by omega
  simp [h0]

lemma lastN_length {α : Type} {n : Nat} {l : List α} :
    (lastN n l).length = l.length - (l.length - n) := by
  simp [lastN]

lemma lastN_drop_append {α : Type} {n k : Nat} {l T : List α} (hk : k ≤ l.length)
    (h : n ≤ l.length - k) :
    lastN n (l.drop k ++ T) = lastN n (l ++ T) := by
  rw [← List.drop_append_of_le_length hk]
  unfold lastN
  rw [List.drop_drop]
  have h1 : (l ++ T).length = l.length + T.length := List.length_append l T
  have h2 : ((l ++ T).drop k).length = l.length + T.length - k := by
    simp [h1]
  rw [h2, h1]
  congr 1
  omega

lemma handleFrame_retain (e : FrameEv) (s : AppState) (hc : retainCond e s = true) :
    handleFrame e s = { s with
      lastFrameCapture := e.now
      capturedFrames :=
        if MAX_FRAMES_FOR_FEEDBACK < (s.capturedFrames ++ [e.frame]).length
        then (s.capturedFrames ++ [e.frame]).drop 1
        else s.capturedFrames ++ [e.frame] } := by
  unfold handleFrame
  split_ifs with g1 g2 g3 <;> simp_all [retainCond, decide_eq_true_eq]

lemma handleFrame_skip (e : FrameEv) (s : AppState) (hc : retainCond e s = false) :
    (handleFrame e s).capturedFrames = s.capturedFrames ∧
    (handleFrame e s).lastFrameCapture = s.lastFrameCapture := by
  unfold handleFrame
  split_ifs with g1 g2 g3 <;> simp_all [retainCond, decide_eq_true_eq]

lemma retainedTrace_cons (e : FrameEv) (rest : List FrameEv) (s : AppState) :
    retainedTrace (e :: rest) s =
      (if retainCond e s then [e.frame] else []) ++ retainedTrace rest (handleFrame e s) :=
  rfl

lemma framesRun_eq_lastN (es : List FrameEv) :
    ∀ s : AppState, s.capturedFrames.length ≤ MAX_FRAMES_FOR_FEEDBACK →
      (framesRun es s).capturedFrames =
        lastN MAX_FRAMES_FOR_FEEDBACK (s.capturedFrames ++ retainedTrace es s) := by
  induction es with
  | nil =>
    intro s h
    simp [framesRun, retainedTrace, lastN_of_length_le h]
  | cons e rest ih =>
    intro s h
    rcases hc : retainCond e s with _ | _
    · have hskip := handleFrame_skip e s hc
      have h2 : (handleFrame e s).capturedFrames.length ≤ MAX_FRAMES_FOR_FEEDBACK := by
        rw [hskip.1]; exact h
      have hrec := ih (handleFrame e s) h2
      rw [show framesRun (e :: rest) s = framesRun rest (handleFrame e s) from rfl,
        hrec, hskip.1, retainedTrace_cons, hc]
      simp
    · have hret := handleFrame_retain e s hc
      have hlapp : (s.capturedFrames ++ [e.frame]).length = s.capturedFrames.length + 1 := by
        simp
      by_cases hlen : MAX_FRAMES_FOR_FEEDBACK < (s.capturedFrames ++ [e.frame]).length
      · have hbuf : (handleFrame e s).capturedFrames = (s.capturedFrames ++ [e.frame]).drop 1 := by
          rw [hret]
          dsimp only
          rw [if_pos hlen]
        have h2 : (handleFrame e s).capturedFrames.length ≤ MAX_FRAMES_FOR_FEEDBACK := by
          rw [hbuf]
          simp only [List.length_drop]
          omega
        have hrec := ih (handleFrame e s) h2
        rw [show framesRun (e :: rest) s = framesRun rest (handleFrame e s) from rfl,
          hrec, hbuf, retainedTrace_cons, hc]
        rw [lastN_drop_append (by omega) (by omega)]
        simp
      · have hbuf : (handleFrame e s).capturedFrames = s.capturedFrames ++ [e.frame] := by
          rw [hret]
          dsimp only
          rw [if_neg hlen]
        have h2 : (handleFrame e s).capturedFrames.length ≤ MAX_FRAMES_FOR_FEEDBACK := by
          rw [hbuf]
          omega
        have hrec := ih (handleFrame e s) h2
        rw [show framesRun (e :: rest) s = framesRun rest (handleFrame e s) from rfl,
          hrec, hbuf, retainedTrace_cons, hc]
        simp

/-- C5: over any run of the frame callback from an open session, the analysis
buffer never exceeds the capacity of 12 and always equals the last 12 frames
of the full retained sequence, in retention order (so the oldest retained
frame is evicted first); a frame whose retention condition fails — in
particular one arriving less than 5000 ms after the last retention — leaves
the buffer and the retention clock unchanged. -/
theorem frame_buffer_bounded_recent (es : List FrameEv) :
    (framesRun es openSessionState).capturedFrames.length ≤ MAX_FRAMES_FOR_FEEDBACK ∧
    (framesRun es openSessionState).capturedFrames =
      lastN MAX_FRAMES_FOR_FEEDBACK (retainedTrace es openSessionState) ∧
    (∀ e s, retainCond e s = false →
      (handleFrame e s).capturedFrames = s.capturedFrames ∧
      (handleFrame e s).lastFrameCapture = s.lastFrameCapture) ∧
    (∀ e s, ¬ FRAME_CAPTURE_INTERVAL ≤ e.now - s.lastFrameCapture →
      (handleFrame e s).capturedFrames = s.capturedFrames) := by
  have hbase : (openSessionState.capturedFrames).length ≤ MAX_FRAMES_FOR_FEEDBACK := by
    simp [openSessionState, initState, MAX_FRAMES_FOR_FEEDBACK]
  have hmain := framesRun_eq_lastN es openSessionState hbase
  have hnil : openSessionState.capturedFrames = [] := rfl
  rw [hnil] at hmain
  simp only [List.nil_append] at hmain
  refine ⟨?_, hmain, ?_, ?_⟩
  · rw [hmain, lastN_length]
    omega
  · intro e s hc
    exact handleFrame_skip e s hc
  · intro e s hiv
    have hc : retainCond e s = false := by
      simp [retainCond, hiv]
    exact (handleFrame_skip e s hc).1

/-- Witness for C5 at a concrete input: a frame arriving 1000 ms after the
previous retention (less than the 5000 ms throttle) is not retained. -/
theorem frame_buffer_bounded_recent_witness :
    (handleFrame ⟨1000, "f2", true, false⟩
        { openSessionState with capturedFrames := ["f1"] }).capturedFrames = ["f1"] :=
  (frame_buffer_bounded_recent []).2.2.2 ⟨1000, "f2", true, false⟩
    { openSessionState with capturedFrames := ["f1"] } (by decide)

/-- The speaking-signal invariant: the "agent is speaking" flag is set exactly
when the active-source set is non-empty. -/
def speakingInv (s : AppState) : Prop := s.isSpeaking = true ↔ s.sources ≠ []

lemma playbackStep_preserves_inv (e : PlaybackEv) (s : AppState) (h : speakingInv s) :
    speakingInv (playbackStep e s) := by
  rcases e with ⟨clock, dur, src⟩ | _ | src
  · simp [playbackStep, enqueue, speakingInv]
  · simp [playbackStep, interrupt, speakingInv]
  · simp only [playbackStep, sourceEnded, speakingInv]
    by_cases he : s.sources.erase src = []
    · simp [he]
    · have hs : s.sources ≠ [] := by
        intro h0
        rw [h0] at he
        simp at he
      simp only [he, if_false]
      exact iff_of_true (h.mpr hs) he

lemma playbackRun_inv (es : List PlaybackEv) :
    ∀ s : AppState, speakingInv s → speakingInv (playbackRun es s) := by
  induction es with
  | nil => intro s h; exact h
  | cons e rest ih => intro s h; exact ih _ (playbackStep_preserves_inv e s h)

/-- C4 (amended): over any sequence of successfully processed playback events
in an open session — decoded audio chunks, interrupted signals, `onended`
callbacks — the speaking signal is true exactly when the active-source set is
non-empty; the signal flips from true to false only on an interrupted signal
or on the `onended` callback that empties the set, and both of those always
leave it false. (The unrestricted claim fails on a caught audio-decode
failure, which leaves the signal true with no active source.) -/
theorem speaking_iff_sources_active (es : List PlaybackEv) :
    ((playbackRun es openSessionState).isSpeaking = true ↔
      (playbackRun es openSessionState).sources ≠ []) ∧
    (∀ s e, s.isSpeaking = true → (playbackStep e s).isSpeaking = false →
      e = PlaybackEv.interrupted ∨
        ∃ src, e = PlaybackEv.ended src ∧ (playbackStep e s).sources = []) ∧
    (∀ s, (playbackStep PlaybackEv.interrupted s).isSpeaking = false) ∧
    (∀ s src, (playbackStep (PlaybackEv.ended src) s).sources = [] →
      (playbackStep (PlaybackEv.ended src) s).isSpeaking = false) := by
  refine ⟨?_, ?_, ?_, ?_⟩
  · have hinit : speakingInv openSessionState := by
      simp [speakingInv, openSessionState, initState]
    exact playbackRun_inv es openSessionState hinit
  · intro s e hs hf
    rcases e with ⟨clock, dur, src⟩ | _ | src
    · simp [playbackStep, enqueue] at hf
    · exact Or.inl rfl
    · refine Or.inr ⟨src, rfl, ?_⟩
      simp only [playbackStep, sourceEnded] at hf ⊢
      by_cases he : s.sources.erase src = []
      · exact he
      · simp only [he, if_false] at hf
        rw [hs] at hf
        exact absurd hf (by simp)
  · intro s
    simp [playbackStep, interrupt]
  · intro s src hemp
    simp only [playbackStep, sourceEnded] at hemp ⊢
    simp [hemp]

/-- Witness for C4 at a concrete input: from a state speaking after one audio
chunk, the event that turns the signal off is the interruption. -/
theorem speaking_iff_sources_active_witness :
    PlaybackEv.interrupted = PlaybackEv.interrupted ∨
      ∃ src, PlaybackEv.interrupted = PlaybackEv.ended src ∧
        (playbackStep PlaybackEv.interrupted
          (playbackStep (PlaybackEv.audioChunk 0 1 5) openSessionState)).sources = [] :=
  (speaking_iff_sources_active []).2.1
    (playbackStep (PlaybackEv.audioChunk 0 1 5) openSessionState) PlaybackEv.interrupted
    (by decide) (by decide)

/-- Run a back-to-back sequence of response-audio chunks through the
scheduler: each event is (current clock time, decoded duration, source id).
Returns the final state and the scheduled start times, in order. -/
def runEnqueues (s : AppState) : List (ℚ × ℚ × Nat) → AppState × List ℚ
  | [] => (s, [])
  | ev :: rest =>
      let r := enqueue ev.1 ev.2.1 ev.2.2 s
      let q := runEnqueues r.1 rest
      (q.1, r.2 :: q.2)

/-- The states the scheduler passes through over a sequence of enqueues:
entry `i` is the state before the `i`-th chunk is scheduled. -/
def enqStates (s : AppState) : List (ℚ × ℚ × Nat) → List AppState
  | [] => [s]
  | ev :: rest => s :: enqStates (enqueue ev.1 ev.2.1 ev.2.2 s).1 rest

lemma enqStates_length (evs : List (ℚ × ℚ × Nat)) :
    ∀ s, (enqStates s evs).length = evs.length + 1 := by
  induction evs with
  | nil => intro s; rfl
  | cons ev rest ih => intro s; simp [enqStates, ih]

lemma runEnqueues_length (evs : List (ℚ × ℚ × Nat)) :
    ∀ s, (runEnqueues s evs).2.length = evs.length := by
  induction evs with
  | nil => intro s; rfl
  | cons ev rest ih => intro s; simp [runEnqueues, ih]

lemma getD_irrel {α : Type} (l : List α) (i : Nat) (h : i < l.length) (d d' : α) :
    l.getD i d = l.getD i d' := by
  induction l generalizing i with
  | nil => simp at h
  | cons a t ih =>
    cases i with
    | zero => rfl
    | succ n =>
      simp only [List.getD_cons_succ]
      exact ih n (by simpa using h)

lemma getD_mem {α : Type} (l : List α) (i : Nat) (d : α) (h : i < l.length) :
    l.getD i d ∈ l := by
  induction l generalizing i with
  | nil => simp at h
  | cons a t ih =>
    cases i with
    | zero => simp
    | succ n =>
      simp only [List.getD_cons_succ]
      exact List.mem_cons_of_mem a (ih n (by simpa using h))

lemma enqStates_getD_zero (evs : List (ℚ × ℚ × Nat)) (s d : AppState) :
    (enqStates s evs).getD 0 d = s := by
  cases evs <;> rfl

lemma enq_master (evs : List (ℚ × ℚ × Nat)) :
    ∀ (s : AppState) (i : Nat), i < evs.length →
      (enqStates s evs).getD (i + 1) s =
        (enqueue (evs.getD i (0, 0, 0)).1 (evs.getD i (0, 0, 0)).2.1
          (evs.getD i (0, 0, 0)).2.2 ((enqStates s evs).getD i s)).1 ∧
      (runEnqueues s evs).2.getD i 0 =
        (enqueue (evs.getD i (0, 0, 0)).1 (evs.getD i (0, 0, 0)).2.1
          (evs.getD i (0, 0, 0)).2.2 ((enqStates s evs).getD i s)).2 := by
  induction evs with
  | nil => intro s i h; simp at h
  | cons ev rest ih =>
    intro s i h
    cases i with
    | zero =>
      constructor
      · rw [show enqStates s (ev :: rest)
            = s :: enqStates (enqueue ev.1 ev.2.1 ev.2.2 s).1 rest from rfl]
        simp only [List.getD_cons_succ, List.getD_cons_zero]
        rw [enqStates_getD_zero]
      · rw [show (runEnqueues s (ev :: rest)).2
            = (enqueue ev.1 ev.2.1 ev.2.2 s).2
              :: (runEnqueues (enqueue ev.1 ev.2.1 ev.2.2 s).1 rest).2 from rfl,
          show enqStates s (ev :: rest)
            = s :: enqStates (enqueue ev.1 ev.2.1 ev.2.2 s).1 rest from rfl]
        simp only [List.getD_cons_succ, List.getD_cons_zero]
    | succ n =>
      have hn : n < rest.length := by simpa using h
      have hrec := ih (enqueue ev.1 ev.2.1 ev.2.2 s).1 n hn
      have hlen : n < (enqStates (enqueue ev.1 ev.2.1 ev.2.2 s).1 rest).length := by
        rw [enqStates_length]
        omega
      have hlen1 : n + 1 < (enqStates (enqueue ev.1 ev.2.1 ev.2.2 s).1 rest).length := by
        rw [enqStates_length]
        omega
      constructor
      · rw [show enqStates s (ev :: rest)
            = s :: enqStates (enqueue ev.1 ev.2.1 ev.2.2 s).1 rest from rfl]
        simp only [List.getD_cons_succ]
        rw [getD_irrel _ _ hlen1 s (enqueue ev.1 ev.2.1 ev.2.2 s).1,
          getD_irrel _ _ hlen s (enqueue ev.1 ev.2.1 ev.2.2 s).1]
        exact hrec.1
      · rw [show (runEnqueues s (ev :: rest)).2
            = (enqueue ev.1 ev.2.1 ev.2.2 s).2
              :: (runEnqueues (enqueue ev.1 ev.2.1 ev.2.2 s).1 rest).2 from rfl,
          show enqStates s (ev :: rest)
            = s :: enqStates (enqueue ev.1 ev.2.1 ev.2.2 s).1 rest from rfl]
        simp only [List.getD_cons_succ]
        rw [getD_irrel _ _ hlen s (enqueue ev.1 ev.2.1 ev.2.2 s).1]
        exact hrec.2

/-- C2: over any back-to-back sequence of response-audio chunks with
nonnegative durations, every chunk's scheduled start equals
`max(cursor, clock)` — hence is never before the clock —, the cursor after
each chunk is exactly its start plus its duration, the chunk's source is
appended to the live set, consecutive starts are separated by at least the
earlier chunk's duration, and start times are non-decreasing. -/
theorem enqueue_schedule_correct (evs : List (ℚ × ℚ × Nat)) (s : AppState)
    (hdur : ∀ ev ∈ evs, 0 ≤ ev.2.1) :
    (runEnqueues s evs).2.length = evs.length ∧
    (∀ i, i < evs.length →
      (runEnqueues s evs).2.getD i 0 =
        max ((enqStates s evs).getD i s).nextStartTime (evs.getD i (0, 0, 0)).1 ∧
      (evs.getD i (0, 0, 0)).1 ≤ (runEnqueues s evs).2.getD i 0 ∧
      ((enqStates s evs).getD (i + 1) s).nextStartTime =
        (runEnqueues s evs).2.getD i 0 + (evs.getD i (0, 0, 0)).2.1 ∧
      ((enqStates s evs).getD (i + 1) s).sources =
        ((enqStates s evs).getD i s).sources ++ [(evs.getD i (0, 0, 0)).2.2]) ∧
    (∀ i, i + 1 < evs.length →
      (runEnqueues s evs).2.getD i 0 + (evs.getD i (0, 0, 0)).2.1 ≤
        (runEnqueues s evs).2.getD (i + 1) 0) ∧
    (∀ i j, i ≤ j → j < evs.length →
      (runEnqueues s evs).2.getD i 0 ≤ (runEnqueues s evs).2.getD j 0) := by
  have hidx : ∀ i, i < evs.length →
      (runEnqueues s evs).2.getD i 0 =
        max ((enqStates s evs).getD i s).nextStartTime (evs.getD i (0, 0, 0)).1 ∧
      (evs.getD i (0, 0, 0)).1 ≤ (runEnqueues s evs).2.getD i 0 ∧
      ((enqStates s evs).getD (i + 1) s).nextStartTime =
        (runEnqueues s evs).2.getD i 0 + (evs.getD i (0, 0, 0)).2.1 ∧
      ((enqStates s evs).getD (i + 1) s).sources =
        ((enqStates s evs).getD i s).sources ++ [(evs.getD i (0, 0, 0)).2.2] := by
    intro i hi
    have hm := enq_master evs s i hi
    refine ⟨hm.2, ?_, ?_, ?_⟩
    · rw [hm.2]
      exact le_max_right _ _
    · rw [hm.1, hm.2]
      rfl
    · rw [hm.1]
      rfl
  have hchain : ∀ i, i + 1 < evs.length →
      (runEnqueues s evs).2.getD i 0 + (evs.getD i (0, 0, 0)).2.1 ≤
        (runEnqueues s evs).2.getD (i + 1) 0 := by
    intro i hi
    have h1 := (hidx i (by omega)).2.2.1
    have h2 := (hidx (i + 1) hi).1
    rw [h2, ← h1]
    exact le_max_left _ _
  have hstep : ∀ i, i + 1 < evs.length →
      (runEnqueues s evs).2.getD i 0 ≤ (runEnqueues s evs).2.getD (i + 1) 0 := by
    intro i hi
    have h0 : 0 ≤ (evs.getD i (0, 0, 0)).2.1 :=
      hdur _ (getD_mem evs i (0, 0, 0) (by omega))
    have := hchain i hi
    linarith
  refine ⟨runEnqueues_length evs s, hidx, hchain, ?_⟩
  intro i j hij
  induction j, hij using Nat.le_induction with
  | base => intro _; exact le_refl _
  | succ n hn ihn =>
    intro hj
    exact le_trans (ihn (by omega)) (hstep n hj)

/-- Witness for C2 at two concrete chunks: start times are non-decreasing. -/
theorem enqueue_schedule_correct_witness :
    (runEnqueues openSessionState [((0 : ℚ), (2 : ℚ), 1), ((1 : ℚ), (3 / 2 : ℚ), 2)]).2.getD 0 0 ≤
      (runEnqueues openSessionState [((0 : ℚ), (2 : ℚ), 1), ((1 : ℚ), (3 / 2 : ℚ), 2)]).2.getD 1 0 :=
  (enqueue_schedule_correct [((0 : ℚ), (2 : ℚ), 1), ((1 : ℚ), (3 / 2 : ℚ), 2)]
      openSessionState (by
        intro ev hev
        simp only [List.mem_cons, List.not_mem_nil, or_false] at hev
        rcases hev with rfl | rfl <;> norm_num)).2.2.2 0 1 (by omega) (by decide)

lemma clampSample_bounds (x : ℚ) : -1 ≤ clampSample x ∧ clampSample x ≤ 1 := by
  unfold clampSample
  constructor
  · exact le_max_left _ _
  · exact max_le (by norm_num) (min_le_left _ _)

lemma quantizeSample_bounds (x : ℚ) :
    -32768 ≤ quantizeSample x ∧ quantizeSample x ≤ 32767 := by
  have hc1 := (clampSample_bounds x).1
  constructor
  · rcases le_or_lt 0 (clampSample x * 32768) with hy | hy
    · have htr : truncQ (clampSample x * 32768) = ⌊clampSample x * 32768⌋ := if_pos hy
      have h0 : (0 : ℤ) ≤ ⌊clampSample x * 32768⌋ := by
        rw [Int.le_floor]
        push_cast
        linarith
      unfold quantizeSample
      rw [htr]
      omega
    · have htr : truncQ (clampSample x * 32768) = -⌊-(clampSample x * 32768)⌋ :=
        if_neg (not_le.mpr hy)
      have h1 : ⌊-(clampSample x * 32768)⌋ ≤ ⌊((32768 : ℤ) : ℚ)⌋ :=
        Int.floor_le_floor (by push_cast; linarith)
      have h2 : ⌊((32768 : ℤ) : ℚ)⌋ = 32768 := Int.floor_intCast 32768
      unfold quantizeSample
      rw [htr]
      omega
  · unfold quantizeSample
    exact min_le_left _ _

lemma quantize_close (x : ℚ) :
    |(quantizeSample x : ℚ) / 32768 - clampSample x| ≤ 1 / 32768 := by
  have hc1 := (clampSample_bounds x).1
  have hc2 := (clampSample_bounds x).2
  have hq : quantizeSample x = min 32767 (truncQ (clampSample x * 32768)) := rfl
  have key : |(quantizeSample x : ℚ) - clampSample x * 32768| ≤ 1 := by
    rcases le_or_lt 0 (clampSample x * 32768) with hy | hy
    · have htr : truncQ (clampSample x * 32768) = ⌊clampSample x * 32768⌋ := if_pos hy
      have hfl : (⌊clampSample x * 32768⌋ : ℚ) ≤ clampSample x * 32768 := Int.floor_le _
      have hfl2 : clampSample x * 32768 < ⌊clampSample x * 32768⌋ + 1 :=
        Int.lt_floor_add_one _
      by_cases hmin : ⌊clampSample x * 32768⌋ ≤ 32767
      · have hqq : quantizeSample x = ⌊clampSample x * 32768⌋ := by
          rw [hq, htr, min_eq_right hmin]
        rw [hqq, abs_le]
        constructor <;> push_cast <;> linarith
      · push_neg at hmin
        have h32 : (32768 : ℤ) ≤ ⌊clampSample x * 32768⌋ := by omega
        have h322 : (32768 : ℚ) ≤ clampSample x * 32768 := by
          calc (32768 : ℚ) = ((32768 : ℤ) : ℚ) := by norm_num
            _ ≤ (⌊clampSample x * 32768⌋ : ℚ) := by exact_mod_cast h32
            _ ≤ clampSample x * 32768 := hfl
        have hyeq : clampSample x * 32768 = 32768 := le_antisymm (by linarith) h322
        have hqq : quantizeSample x = 32767 := by
          rw [hq, htr, min_eq_left (by omega)]
        rw [hqq, hyeq]
        norm_num
    · have htr : truncQ (clampSample x * 32768) = -⌊-(clampSample x * 32768)⌋ :=
        if_neg (not_le.mpr hy)
      have hfl : (⌊-(clampSample x * 32768)⌋ : ℚ) ≤ -(clampSample x * 32768) :=
        Int.floor_le _
      have hfl2 : -(clampSample x * 32768) < ⌊-(clampSample x * 32768)⌋ + 1 :=
        Int.lt_floor_add_one _
      have hpos : (0 : ℤ) ≤ ⌊-(clampSample x * 32768)⌋ := by
        rw [Int.le_floor]
        push_cast
        linarith
      have hqq : quantizeSample x = -⌊-(clampSample x * 32768)⌋ := by
        rw [hq, htr, min_eq_right (by omega)]
      rw [hqq, abs_le]
      constructor <;> push_cast <;> linarith
  have hrw : (quantizeSample x : ℚ) / 32768 - clampSample x
      = ((quantizeSample x : ℚ) - clampSample x * 32768) / 32768 := by ring
  rw [hrw, abs_div, show |(32768 : ℚ)| = 32768 from by norm_num]
  exact (div_le_div_iff_of_pos_right (by norm_num : (0 : ℚ) < 32768)).mpr key

lemma int16_bytes_roundtrip (v : Int) (h1 : -32768 ≤ v) (h2 : v ≤ 32767) :
    bytesToInt16 ((v % 65536).toNat % 256) ((v % 65536).toNat / 256) = v := by
  have hmod : 0 ≤ v % 65536 := Int.emod_nonneg v (by norm_num)
  have hmodlt : v % 65536 < 65536 := Int.emod_lt_of_pos v (by norm_num)
  have hcast : ((v % 65536).toNat : Int) = v % 65536 := Int.toNat_of_nonneg hmod
  have hsum : (v % 65536).toNat % 256 + 256 * ((v % 65536).toNat / 256)
      = (v % 65536).toNat := Nat.mod_add_div _ _
  have hsumZ : (((v % 65536).toNat % 256 : Nat) : Int)
      + 256 * (((v % 65536).toNat / 256 : Nat) : Int) = ((v % 65536).toNat : Int) := by
    exact_mod_cast hsum
  unfold bytesToInt16
  split_ifs with hcond
  · have hcond2 : (v % 65536).toNat < 32768 := by omega
    rw [hsumZ, hcast]
    omega
  · have hcond2 : 32768 ≤ (v % 65536).toNat := by omega
    rw [hsumZ, hcast]
    omega

lemma decodePcm_cons (v : Int) (h1 : -32768 ≤ v) (h2 : v ≤ 32767) (rest : List Nat) :
    decodePcmSamples (int16ToBytes v ++ rest)
      = ((v : ℚ) / 32768) :: decodePcmSamples rest := by
  rw [show int16ToBytes v ++ rest
      = (v % 65536).toNat % 256 :: (v % 65536).toNat / 256 :: rest from rfl]
  rw [show decodePcmSamples ((v % 65536).toNat % 256 :: (v % 65536).toNat / 256 :: rest)
      = ((bytesToInt16 ((v % 65536).toNat % 256) ((v % 65536).toNat / 256) : ℚ) / 32768)
        :: decodePcmSamples rest from rfl]
  rw [int16_bytes_roundtrip v h1 h2]

/-- C6: decoding the PCM blob of any float sample array (two little-endian
bytes per sample, reinterpreted as signed 16-bit values and divided by 32768)
yields one sample per input sample, each within one quantization step
(1/32768) of the input sample clamped to `[-1, 1]`. -/
theorem pcm_roundtrip_within_one_step (xs : List ℚ) :
    (decodePcmSamples (createPcmBlobData xs)).length = xs.length ∧
    ∀ i, i < xs.length →
      |(decodePcmSamples (createPcmBlobData xs)).getD i 0
        - clampSample (xs.getD i 0)| ≤ 1 / 32768 := by
  induction xs with
  | nil =>
    refine ⟨rfl, ?_⟩
    intro i h
    simp at h
  | cons x rest ih =>
    have hb := quantizeSample_bounds x
    have hd : decodePcmSamples (createPcmBlobData (x :: rest))
        = ((quantizeSample x : ℚ) / 32768) :: decodePcmSamples (createPcmBlobData rest) := by
      rw [show createPcmBlobData (x :: rest)
          = int16ToBytes (quantizeSample x) ++ createPcmBlobData rest from rfl]
      exact decodePcm_cons _ hb.1 hb.2 _
    constructor
    · rw [hd]
      simp [ih.1]
    · intro i hi
      cases i with
      | zero =>
        rw [hd]
        simp only [List.getD_cons_zero]
        exact quantize_close x
      | succ n =>
        rw [hd]
        simp only [List.getD_cons_succ]
        exact ih.2 n (by simpa using hi)

/-- Witness for C6 at a concrete sample array: the first decoded sample of
`[1, -3/2, 1/3]` is within 1/32768 of the clamp of `1`. -/
theorem pcm_roundtrip_within_one_step_witness :
    |(decodePcmSamples (createPcmBlobData [(1 : ℚ), -(3 : ℚ) / 2, 1 / 3])).getD 0 0
      - clampSample (([(1 : ℚ), -(3 : ℚ) / 2, 1 / 3]).getD 0 0)| ≤ 1 / 32768 :=
  (pcm_roundtrip_within_one_step [(1 : ℚ), -(3 : ℚ) / 2, 1 / 3]).2 0 (by decide)

/-- Counterexample for C4 as originally claimed: a message whose audio payload
fails to decode sets the speaking flag before the awaited decode throws
(`src/App.tsx` line 375), and the catch clause keeps that mutation — so right
after this caught failure the speaking signal is true while the active-source
set is empty, falsifying "speaking ⇔ sources non-empty at every point during a
session". -/
theorem speaking_without_sources_cex :
    (handleMessage 0 0 ⟨some none, false, none, none, false⟩ openSessionState).isSpeaking
      = true ∧
    (handleMessage 0 0 ⟨some none, false, none, none, false⟩ openSessionState).sources
      = [] ∧
    ¬ ((handleMessage 0 0 ⟨some none, false, none, none, false⟩
          openSessionState).isSpeaking = true ↔
        (handleMessage 0 0 ⟨some none, false, none, none, false⟩
          openSessionState).sources ≠ []) := by
  decide
